import Mathlib

/-!
Shallow embedding of `imagine.py`, a pandoc filter that turns fenced code
blocks into graphics or ASCII art by invoking external programs.

The embedding models:
* the input `CodeBlock` value `[(Identity, [classes], [(key, val)]), code]`;
* the `pandocfilters` helpers `get_value`, `get_caption`, `get_extension`
  and `get_filename4code` (the latter parameterised over the hash);
* the handler registry built by `HandlerMeta` (codecs of every worker class);
* dispatch (`Handler.__call__`), decoding (`Handler.__init__`),
  the process runner (`Handler.cmd`), the cache write (`Handler.write`),
  and each worker's `image` method.

The filesystem is an association list from paths to file contents; the
external-process world is a function from the full argument vector to an
`Except` value (`.ok output` for exit status 0 with the captured combined
stdout+stderr, `.error output` for a `CalledProcessError`).
-/

set_option maxHeartbeats 1000000
set_option linter.dupNamespace false

namespace Imagine

/-- A pandoc CodeBlock value: `[(Identity, [classes], [(key, val)]), code]`. -/
structure CodeBlock where
  id_ : String
  classes : List String
  keyvals : List (String × String)
  code : String
  deriving DecidableEq, Repr

/-- Attributes `(Identity, [classes], [(key, val)])` of an output element. -/
structure Attr where
  id_ : String
  classes : List String
  keyvals : List (String × String)
  deriving DecidableEq, Repr

/-- The original attribute triple `codec[0]` of a CodeBlock. -/
def CodeBlock.attr (c : CodeBlock) : Attr :=
  ⟨c.id_, c.classes, c.keyvals⟩

/-- Output document nodes produced by the filter: a CodeBlock element, or a
Para wrapping an Image link `Image(attr, caption, (url, typef))`. -/
inductive Node where
  | codeBlock (attr : Attr) (code : String)
  | para (attr : Attr) (caption : Option String) (url : String) (typef : String)
  deriving DecidableEq, Repr

/-- `pandocfilters.get_value(kv, key, value)`: returns the value of the last
matching key (or the default) together with the key-value list with every
occurrence of the key removed. -/
def get_value (kv : List (String × String)) (key : String) (dflt : Option String) :
    Option String × List (String × String) :=
  match kv with
  | [] => (dflt, [])
  | (k, v) :: rest =>
    if k = key then get_value rest key (some v)
    else
      let r := get_value rest key dflt
      (r.1, (k, v) :: r.2)

/-- `pandocfilters.get_caption(kv)`: pops `caption`; when present the caption
text is wrapped (modelled as `some value`) and `typef` is `"fig:"`. -/
def get_caption (kv : List (String × String)) :
    Option String × String × List (String × String) :=
  let r := get_value kv "caption" none
  match r.1 with
  | some v => (some v, "fig:", r.2)
  | none => (none, "", r.2)

/-- `str.lower()` (ASCII case folding suffices for the registry keys and the
literal `"true"` used in the source). -/
def toLowerStr (s : String) : String :=
  ⟨s.data.map Char.toLower⟩

/-- The worker subclasses of `Handler` defined in the source. -/
inductive WorkerKind where
  | imagine | figlet | boxes | protocol
  | plotUtilPlot | plotUtilsGraph | pic2Plot
  | plantUml | mermaid | ditaa | mscGen | blockDiag | graphviz
  deriving DecidableEq, Repr

/-- Each worker class's `codecs` dictionary (klass → cli program). -/
def WorkerKind.codecs : WorkerKind → List (String × String)
  | .imagine => [("imagine", "imagine")]
  | .figlet => [("figlet", "figlet")]
  | .boxes => [("boxes", "boxes")]
  | .protocol => [("protocol", "protocol")]
  | .plotUtilPlot => [("plot", "plot")]
  | .plotUtilsGraph => [("graph", "graph"), ("gnugraph", "graph")]
  | .pic2Plot => [("pic2plot", "pic2plot"), ("pic", "pic2plot")]
  | .plantUml => [("plantuml", "plantuml")]
  | .mermaid => [("mermaid", "mermaid")]
  | .ditaa => [("ditaa", "ditaa")]
  | .mscGen => [("mscgen", "mscgen")]
  | .blockDiag =>
    [("blockdiag", "blockdiag"), ("seqdiag", "seqdiag"), ("rackdiag", "rackdiag"),
     ("nwdiag", "nwdiag"), ("packetdiag", "packetdiag"), ("actdiag", "actdiag")]
  | .graphviz =>
    [("dot", "dot"), ("neato", "neato"), ("twopi", "twopi"), ("circo", "circo"),
     ("fdp", "fdp"), ("sfdp", "sfdp"), ("graphviz", "dot")]

/-- Every worker class, in source order. -/
def allWorkers : List WorkerKind :=
  [.imagine, .figlet, .boxes, .protocol, .plotUtilPlot, .plotUtilsGraph,
   .pic2Plot, .plantUml, .mermaid, .ditaa, .mscGen, .blockDiag, .graphviz]

/-- The registry `Handler.workers` built by `HandlerMeta`: maps each codec key
(lowercased; all source keys are already lowercase) to its worker class. -/
def workers (k : String) : Option WorkerKind :=
  allWorkers.findSome? fun w => if (w.codecs.lookup k).isSome then some w else none

/-- Result of `Handler.__call__`: the default handler, a worker dispatched by
class (which records the lowercased class tag in `worker.klass`), or a worker
dispatched by the `prog` key-value (which leaves `klass` unset). -/
inductive Dispatched where
  | default
  | byClass (w : WorkerKind) (klass : String)
  | byProg (w : WorkerKind)
  deriving DecidableEq, Repr

/-- The class-tag loop of `Handler.__call__`: first class tag whose lowercase
form is a registry key wins. -/
def dispatchClasses : List String → Option (String × WorkerKind)
  | [] => none
  | c :: rest =>
    match workers (toLowerStr c) with
    | some w => some (toLowerStr c, w)
    | none => dispatchClasses rest

/-- `Handler.__call__`: dispatch by class tag, then by the `prog` key-value,
then fall back to the default handler. -/
def dispatch (codec : CodeBlock) : Dispatched :=
  match dispatchClasses codec.classes with
  | some kw => .byClass kw.2 kw.1
  | none =>
    if codec.keyvals = [] then .default
    else
      let prog := ((get_value codec.keyvals "prog" (some "")).1).getD ""
      match workers (toLowerStr prog) with
      | some w => .byProg w
      | none => .default

/-- The filesystem: an association list from paths to file contents (the most
recent entry for a path wins). -/
structure FS where
  files : List (String × String)
  deriving DecidableEq, Repr

/-- Contents of the file at `p`, if any. -/
def FS.read (fs : FS) (p : String) : Option String :=
  fs.files.lookup p

/-- `os.path.isfile`. -/
def FS.isfile (fs : FS) (p : String) : Bool :=
  (fs.read p).isSome

/-- Create or overwrite the file at `p`. -/
def FS.insert (fs : FS) (p d : String) : FS :=
  ⟨(p, d) :: fs.files⟩

/-- `os.remove` (no-op when the file is absent, modelling the swallowed
exception of `try: os.remove(...) except: pass`). -/
def FS.remove (fs : FS) (p : String) : FS :=
  ⟨fs.files.filter fun e => e.1 != p⟩

/-- `os.rename` (the swallowed-exception variant: no-op when `src` is
absent). -/
def FS.rename (fs : FS) (src dst : String) : FS :=
  match fs.read src with
  | some d => (fs.remove src).insert dst d
  | none => fs

/-- The external-process world: maps a full argument vector (program name
first) to `.ok combinedOutput` on exit status 0, or `.error combinedOutput`
for a `CalledProcessError`. -/
def Runner : Type :=
  List String → Except String String

/-- `pandocfilters.get_extension(format, default, **alternates)`; no call in
the source supplies alternates. -/
def get_extension (format : String) (dflt : String)
    (alternates : List (String × String)) : String :=
  (alternates.lookup format).getD dflt

/-- `pandocfilters.get_filename4code(module, content)`: the name under
`module ++ "-images"` derived from the hash of the content string; the sha1
hex digest itself is abstracted into the `hashed` argument. -/
def get_filename4code (module : String) (hashed : String) : String :=
  module ++ "-images/" ++ hashed

/-- Helper for `splitWs`: split a character list on whitespace, accumulating
the current (reversed) field, discarding empty fields. -/
def splitWsAux (cur : List Char) : List Char → List String
  | [] => if cur = [] then [] else [⟨cur.reverse⟩]
  | c :: cs =>
    if c.isWhitespace then
      if cur = [] then splitWsAux [] cs
      else String.mk cur.reverse :: splitWsAux [] cs
    else splitWsAux (c :: cur) cs

/-- `str.split()` with no arguments: split on runs of whitespace, discarding
empty fields. -/
def splitWs (s : String) : List String :=
  splitWsAux [] s.data

/-- The module docstring `__doc__` substituted into a block by the `imagine`
worker; its exact text plays no role in any property below, so it is kept
abridged. -/
def imagineDoc : String :=
  "Imagine\n  A pandoc filter ... used to turn a fenced codeblock into graphics or ascii art.\n"

/-- The decoded per-block state built by `Handler.__init__`. -/
structure HandlerState where
  codec : CodeBlock
  id_ : String
  classes : List String
  keyvals : List (String × String)
  caption : Option String
  typef : String
  options : String
  prog : String
  keep : Bool
  basename : String
  fext : String
  outfile : String
  inpfile : String
  codetxt : String
  output : String
  deriving DecidableEq, Repr

/-- `Handler.write(mode, dta, dst)`: writing zero bytes is skipped (returns
`false`); otherwise the file is written. Host I/O failure (the swallowed
exception branch) is not representable in the model filesystem. -/
def Handler.write (fs : FS) (dta : String) (dst : String) : Bool × FS :=
  if dta.length = 0 then (false, fs)
  else (true, fs.insert dst dta)

/-- The input-file step of `Handler.__init__`: write the block's content to
the input file unless that file already exists. -/
def prepInput (fs : FS) (dta inp : String) : FS :=
  if fs.isfile inp then fs else (Handler.write fs dta inp).2

/-- The program-resolution step of `Handler.__init__`:
`self.prog = self.prog if self.prog else self.codecs.get(self.klass, None)`
(a popped `prog` value counts only when truthy, i.e. non-empty), with `none`
modelling the `self.prog is None` case that raises. -/
def resolveProg (w : WorkerKind) (klass : Option String) (p : Option String) :
    Option String :=
  match p with
  | some pv => if pv = "" then klass.bind (fun c => w.codecs.lookup c) else some pv
  | none => klass.bind (fun c => w.codecs.lookup c)

/-- `Handler.__init__` for a dispatched worker `w`: decode the CodeBlock's
value, resolve the cli program (explicit `prog` keyval if truthy, then the
worker's `codecs` entry for the dispatched class; raise when neither gives a
program), derive the cache paths, and write the input file when absent.
`hash` abstracts `sha1(str(codec)).hexdigest()`. -/
def Handler.init (hash : CodeBlock → String) (w : WorkerKind) (klass : Option String)
    (codec : CodeBlock) (fs : FS) : Except String (HandlerState × FS) :=
  let c := get_caption codec.keyvals
  let o := get_value c.2.2 "options" (some "")
  let p := get_value o.2 "prog" none
  let k := get_value p.2 "keep" (some "")
  match resolveProg w klass p.1 with
  | none => .error "worker has no cli command"
  | some prog =>
    let basename := get_filename4code "pd" (hash codec)
    let inpfile := basename ++ "." ++ "txt"
    let h : HandlerState :=
      { codec := codec
        id_ := codec.id_
        classes := codec.classes
        keyvals := k.2
        caption := c.1
        typef := c.2.1
        options := (o.1).getD ""
        prog := prog
        keep := toLowerStr ((k.1).getD "") == "true"
        basename := basename
        fext := "png"
        outfile := basename ++ "." ++ "png"
        inpfile := inpfile
        codetxt := codec.code
        output := "" }
    .ok (h, prepInput fs h.codetxt inpfile)

/-- `Handler.fmt(fmt, default)`: reset the image file extension (and hence the
output path) from the output document format. -/
def HandlerState.runFmt (h : HandlerState) (format : String) (dflt : String) : HandlerState :=
  let e := get_extension format dflt []
  { h with fext := e, outfile := h.basename ++ "." ++ e }

/-- `Handler.AnonCodeBlock`: reproduce the original CodeBlock inside an
anonymous CodeBlock. -/
def HandlerState.anonCodeBlock (h : HandlerState) : Node :=
  let id2 := if h.codec.id_ = "" then h.codec.id_ else "#" ++ h.codec.id_
  let klasses := String.intercalate " " (h.codec.classes.map fun c => "." ++ c)
  let keyvals := String.intercalate " "
    (h.codec.keyvals.map fun kv => kv.1 ++ "=\"" ++ kv.2 ++ "\"")
  let attr := "\x7b" ++
    String.intercalate " " ([id2, klasses, keyvals].filter fun a => a != "") ++ "\x7d"
  Node.codeBlock ⟨"", [], []⟩ ("```" ++ attr ++ "\n" ++ h.codec.code ++ "\n```")

/-- `Handler.Para`: a Para with an Image link to the generated image,
preceded by the reconstructed original block when `keep` is set. -/
def HandlerState.ParaNodes (h : HandlerState) : List Node :=
  let retval := Node.para ⟨h.id_, h.classes, h.keyvals⟩ h.caption h.outfile h.typef
  if h.keep then [h.anonCodeBlock, retval] else [retval]

/-- `Handler.CodeBlock`: a CodeBlock element, preceded by the reconstructed
original block when `keep` is set. -/
def HandlerState.CodeBlockNodes (h : HandlerState) (attr : Attr) (code : String) : List Node :=
  let retval := Node.codeBlock attr code
  if h.keep then [h.anonCodeBlock, retval] else [retval]

/-- Result of one `Handler.cmd` call: success flag, the handler's `output`
attribute afterwards, the filesystem afterwards, whether the external program
was actually invoked, and the diagnostic text surfaced on failure. -/
structure CmdResult where
  ok : Bool
  output : String
  fs : FS
  invoked : Bool
  diag : Option String
  deriving DecidableEq, Repr

/-- `Handler.cmd`: skip invocation when the output file exists and `force` is
false; otherwise run the program, capturing combined output on success and
removing the output file (best effort) on a non-zero exit. `prevOutput` is
the handler's `output` attribute before the call. -/
def Handler.cmd (runner : Runner) (fs : FS) (outfile : String) (prevOutput : String)
    (force : Bool) (args : List String) : CmdResult :=
  if fs.isfile outfile && !force then
    { ok := true, output := prevOutput, fs := fs, invoked := false, diag := none }
  else
    match runner args with
    | .ok out =>
      { ok := true, output := out, fs := fs, invoked := true, diag := none }
    | .error eout =>
      { ok := false, output := prevOutput, fs := fs.remove outfile, invoked := true,
        diag := some eout }

/-- Result of one worker `image` call: the replacement nodes (`none` keeps
the CodeBlock as-is), the filesystem afterwards, the handler's captured
output, whether an external program was invoked, and any failure diagnostic. -/
structure ImageResult where
  nodes : Option (List Node)
  fs : FS
  output : String
  invoked : Bool
  diag : Option String
  deriving DecidableEq, Repr

/-- `Handler.image`: the default handler keeps the CodeBlock as-is. -/
def Handler.image (fs : FS) (h : HandlerState) : ImageResult :=
  { nodes := none, fs := fs, output := h.output, invoked := false, diag := none }

/-- `Imagine.image`: replace the block with the module docstring. -/
def Imagine.image (fs : FS) (h : HandlerState) : ImageResult :=
  { nodes := some [Node.codeBlock ⟨"", ["imagine"], []⟩ imagineDoc],
    fs := fs, output := h.output, invoked := false, diag := none }

/-- `Figlet.image`: run `prog <options> <codetxt>` and substitute the captured
stdout into a CodeBlock carrying the original attributes. -/
def Figlet.image (runner : Runner) (fs : FS) (h : HandlerState) : ImageResult :=
  let args := h.prog :: (splitWs h.options ++ [h.codetxt])
  let r := Handler.cmd runner fs h.outfile h.output false args
  if r.ok then
    { nodes := some (h.CodeBlockNodes h.codec.attr r.output),
      fs := r.fs, output := r.output, invoked := r.invoked, diag := r.diag }
  else
    { nodes := none, fs := r.fs, output := r.output, invoked := r.invoked, diag := r.diag }

/-- `Boxes.image`: like `Figlet.image` but the last argument is the input
file path. -/
def Boxes.image (runner : Runner) (fs : FS) (h : HandlerState) : ImageResult :=
  let args := h.prog :: (splitWs h.options ++ [h.inpfile])
  let r := Handler.cmd runner fs h.outfile h.output false args
  if r.ok then
    { nodes := some (h.CodeBlockNodes h.codec.attr r.output),
      fs := r.fs, output := r.output, invoked := r.invoked, diag := r.diag }
  else
    { nodes := none, fs := r.fs, output := r.output, invoked := r.invoked, diag := r.diag }

/-- `Protocol.image`: same shape as `Figlet.image`. -/
def Protocol.image (runner : Runner) (fs : FS) (h : HandlerState) : ImageResult :=
  let args := h.prog :: (splitWs h.options ++ [h.codetxt])
  let r := Handler.cmd runner fs h.outfile h.output false args
  if r.ok then
    { nodes := some (h.CodeBlockNodes h.codec.attr r.output),
      fs := r.fs, output := r.output, invoked := r.invoked, diag := r.diag }
  else
    { nodes := none, fs := r.fs, output := r.output, invoked := r.invoked, diag := r.diag }

/-- `PlotUtilPlot.image`: the block's content is the path of an existing meta
graphics file; fail without invoking anything when it does not exist, else
run `prog -T <ext> <options> <codetxt>` and write the captured output to the
output file. -/
def PlotUtilPlot.image (runner : Runner) (format : String) (fs : FS)
    (h : HandlerState) : ImageResult :=
  let h := h.runFmt format "png"
  if fs.isfile h.codetxt then
    let args := h.prog :: "-T" :: h.fext :: (splitWs h.options ++ [h.codetxt])
    let r := Handler.cmd runner fs h.outfile h.output false args
    if r.ok then
      let wr := Handler.write r.fs r.output h.outfile
      { nodes := some h.ParaNodes, fs := wr.2, output := r.output,
        invoked := r.invoked, diag := r.diag }
    else
      { nodes := none, fs := r.fs, output := r.output, invoked := r.invoked, diag := r.diag }
  else
    { nodes := none, fs := fs, output := h.output, invoked := false, diag := none }

/-- `PlotUtilsGraph.image`: run `prog -T <ext> <options> <inpfile>` and write
the captured output to the output file. -/
def PlotUtilsGraph.image (runner : Runner) (format : String) (fs : FS)
    (h : HandlerState) : ImageResult :=
  let h := h.runFmt format "png"
  let args := h.prog :: "-T" :: h.fext :: (splitWs h.options ++ [h.inpfile])
  let r := Handler.cmd runner fs h.outfile h.output false args
  if r.ok then
    let wr := Handler.write r.fs r.output h.outfile
    { nodes := some h.ParaNodes, fs := wr.2, output := r.output,
      invoked := r.invoked, diag := r.diag }
  else
    { nodes := none, fs := r.fs, output := r.output, invoked := r.invoked, diag := r.diag }

/-- `Pic2Plot.image`: identical in shape to `PlotUtilsGraph.image`. -/
def Pic2Plot.image (runner : Runner) (format : String) (fs : FS)
    (h : HandlerState) : ImageResult :=
  let h := h.runFmt format "png"
  let args := h.prog :: "-T" :: h.fext :: (splitWs h.options ++ [h.inpfile])
  let r := Handler.cmd runner fs h.outfile h.output false args
  if r.ok then
    let wr := Handler.write r.fs r.output h.outfile
    { nodes := some h.ParaNodes, fs := wr.2, output := r.output,
      invoked := r.invoked, diag := r.diag }
  else
    { nodes := none, fs := r.fs, output := r.output, invoked := r.invoked, diag := r.diag }

/-- `PlantUml.image`: run `prog -t<ext> <inpfile>` (the tool writes the
output file itself). -/
def PlantUml.image (runner : Runner) (format : String) (fs : FS)
    (h : HandlerState) : ImageResult :=
  let h := h.runFmt format "png"
  let r := Handler.cmd runner fs h.outfile h.output false
    [h.prog, "-t" ++ h.fext, h.inpfile]
  if r.ok then
    { nodes := some h.ParaNodes, fs := r.fs, output := r.output,
      invoked := r.invoked, diag := r.diag }
  else
    { nodes := none, fs := r.fs, output := r.output, invoked := r.invoked, diag := r.diag }

/-- `Mermaid.image`: run `prog -o pd-images <options> <inpfile>`, then rename
`<inpfile>.<ext>` to the output path (best effort). -/
def Mermaid.image (runner : Runner) (format : String) (fs : FS)
    (h : HandlerState) : ImageResult :=
  let h := h.runFmt format "png"
  let args := h.prog :: "-o" :: "pd-images" :: (splitWs h.options ++ [h.inpfile])
  let r := Handler.cmd runner fs h.outfile h.output false args
  if r.ok then
    let fs2 := r.fs.rename (h.inpfile ++ "." ++ h.fext) h.outfile
    { nodes := some h.ParaNodes, fs := fs2, output := r.output,
      invoked := r.invoked, diag := r.diag }
  else
    { nodes := none, fs := r.fs, output := r.output, invoked := r.invoked, diag := r.diag }

/-- `Ditaa.image`: run `prog <inpfile> <outfile> -T <options>` (options not
split). -/
def Ditaa.image (runner : Runner) (format : String) (fs : FS)
    (h : HandlerState) : ImageResult :=
  let h := h.runFmt format "png"
  let r := Handler.cmd runner fs h.outfile h.output false
    [h.prog, h.inpfile, h.outfile, "-T", h.options]
  if r.ok then
    { nodes := some h.ParaNodes, fs := r.fs, output := r.output,
      invoked := r.invoked, diag := r.diag }
  else
    { nodes := none, fs := r.fs, output := r.output, invoked := r.invoked, diag := r.diag }

/-- `MscGen.image`: run `prog -T <ext> -o <outfile> <inpfile>`. -/
def MscGen.image (runner : Runner) (format : String) (fs : FS)
    (h : HandlerState) : ImageResult :=
  let h := h.runFmt format "png"
  let r := Handler.cmd runner fs h.outfile h.output false
    [h.prog, "-T", h.fext, "-o", h.outfile, h.inpfile]
  if r.ok then
    { nodes := some h.ParaNodes, fs := r.fs, output := r.output,
      invoked := r.invoked, diag := r.diag }
  else
    { nodes := none, fs := r.fs, output := r.output, invoked := r.invoked, diag := r.diag }

/-- `BlockDiag.image`: run `prog -T <ext> <inpfile> -o <outfile>`. -/
def BlockDiag.image (runner : Runner) (format : String) (fs : FS)
    (h : HandlerState) : ImageResult :=
  let h := h.runFmt format "png"
  let r := Handler.cmd runner fs h.outfile h.output false
    [h.prog, "-T", h.fext, h.inpfile, "-o", h.outfile]
  if r.ok then
    { nodes := some h.ParaNodes, fs := r.fs, output := r.output,
      invoked := r.invoked, diag := r.diag }
  else
    { nodes := none, fs := r.fs, output := r.output, invoked := r.invoked, diag := r.diag }

/-- `Graphviz.image`: run `prog <options> -T<ext> <inpfile> -o <outfile>`. -/
def Graphviz.image (runner : Runner) (format : String) (fs : FS)
    (h : HandlerState) : ImageResult :=
  let h := h.runFmt format "png"
  let args := splitWs h.options ++ ["-T" ++ h.fext, h.inpfile, "-o", h.outfile]
  let r := Handler.cmd runner fs h.outfile h.output false (h.prog :: args)
  if r.ok then
    { nodes := some h.ParaNodes, fs := r.fs, output := r.output,
      invoked := r.invoked, diag := r.diag }
  else
    { nodes := none, fs := r.fs, output := r.output, invoked := r.invoked, diag := r.diag }

/-- Dispatch to the matched worker's `image` method. -/
def workerImage (w : WorkerKind) (runner : Runner) (format : String) (fs : FS)
    (h : HandlerState) : ImageResult :=
  match w with
  | .imagine => Imagine.image fs h
  | .figlet => Figlet.image runner fs h
  | .boxes => Boxes.image runner fs h
  | .protocol => Protocol.image runner fs h
  | .plotUtilPlot => PlotUtilPlot.image runner format fs h
  | .plotUtilsGraph => PlotUtilsGraph.image runner format fs h
  | .pic2Plot => Pic2Plot.image runner format fs h
  | .plantUml => PlantUml.image runner format fs h
  | .mermaid => Mermaid.image runner format fs h
  | .ditaa => Ditaa.image runner format fs h
  | .mscGen => MscGen.image runner format fs h
  | .blockDiag => BlockDiag.image runner format fs h
  | .graphviz => Graphviz.image runner format fs h

/-- Initialize the dispatched worker on the codec, then run its `image`. -/
def runWorker (hash : CodeBlock → String) (w : WorkerKind) (klass : Option String)
    (runner : Runner) (format : String) (fs : FS) (codec : CodeBlock) :
    Except String ImageResult :=
  match Handler.init hash w klass codec fs with
  | .error e => .error e
  | .ok hf => .ok (workerImage w runner format hf.2 hf.1)

/-- The `walker` applied to one CodeBlock: dispatch, then produce. The
default handler never decodes the block and keeps it as-is. -/
def processBlock (hash : CodeBlock → String) (runner : Runner) (format : String)
    (fs : FS) (codec : CodeBlock) : Except String ImageResult :=
  match dispatch codec with
  | .default => .ok { nodes := none, fs := fs, output := "", invoked := false, diag := none }
  | .byClass w k => runWorker hash w (some k) runner format fs codec
  | .byProg w => runWorker hash w none runner format fs codec

/-- Extract the image result from a processed block; the fallback value is
inert (used only when processing raised, which never happens below). -/
def resOf (e : Except String ImageResult) : ImageResult :=
  match e with
  | .ok r => r
  | .error _ => ⟨none, ⟨[]⟩, "", false, none⟩

/-- Spec-side reading of an attribute list: the value of the last occurrence
of `key`, if any. -/
def lastValue (kv : List (String × String)) (key : String) : Option String :=
  (get_value kv key none).1

/-! ### Helper lemmas -/

theorem FS.isfile_remove (fs : FS) (p : String) : (fs.remove p).isfile p = false := by
  rcases fs with ⟨l⟩
  induction l with
  | nil => rfl
  | cons e rest ih =>
    rcases e with ⟨k, v⟩
    by_cases he : k = p
    · have hstep : FS.remove ⟨(k, v) :: rest⟩ p = FS.remove ⟨rest⟩ p := by
        simp [FS.remove, he]
      rw [hstep]
      exact ih
    · have hstep : FS.remove ⟨(k, v) :: rest⟩ p = ⟨(k, v) :: (FS.remove ⟨rest⟩ p).files⟩ := by
        simp [FS.remove, he]
      rw [hstep]
      have h2 : (p == k) = false := beq_eq_false_iff_ne.mpr (Ne.symm he)
      simpa [FS.isfile, FS.read, List.lookup, h2, FS.remove] using ih

theorem FS.isfile_insert_self (fs : FS) (p d : String) :
    (fs.insert p d).isfile p = true := by
  simp [FS.insert, FS.isfile, FS.read, List.lookup]

theorem FS.isfile_insert_ne (fs : FS) (p q d : String) (h : q ≠ p) :
    (fs.insert p d).isfile q = fs.isfile q := by
  simp [FS.insert, FS.isfile, FS.read, List.lookup, beq_eq_false_iff_ne.mpr h]

theorem strApp_left_inj (a s t : String) (h : a ++ s = a ++ t) : s = t := by
  apply String.ext
  have hd := congrArg String.data h
  simp only [String.data_append] at hd
  exact List.append_cancel_left hd

theorem strApp_right_inj (a s t : String) (h : s ++ a = t ++ a) : s = t := by
  apply String.ext
  have hd := congrArg String.data h
  simp only [String.data_append] at hd
  exact List.append_cancel_right hd

theorem txt_ne_png (bn : String) : bn ++ "." ++ "txt" ≠ bn ++ "." ++ "png" := by
  intro h
  have := strApp_left_inj (bn ++ ".") "txt" "png" h
  simp at this

/-- Popping one key does not change the last value of a different key. -/
theorem get_value_pop_fst (k1 k2 : String) (hne : k1 ≠ k2) :
    ∀ (kv : List (String × String)) (d1 d2 : Option String),
    (get_value (get_value kv k1 d1).2 k2 d2).1 = (get_value kv k2 d2).1 := by
  intro kv
  induction kv with
  | nil => intro d1 d2; rfl
  | cons e rest ih =>
    intro d1 d2
    rcases e with ⟨k, v⟩
    by_cases h1 : k = k1
    · have hstep : get_value ((k, v) :: rest) k1 d1 = get_value rest k1 (some v) := by
        simp [get_value, h1]
      have hk2 : k ≠ k2 := by rw [h1]; exact hne
      have hR : (get_value ((k, v) :: rest) k2 d2).1 = (get_value rest k2 d2).1 := by
        simp [get_value, hk2]
      rw [hstep, ih (some v) d2, hR]
    · by_cases h2 : k = k2
      · have hL1 : get_value ((k, v) :: rest) k1 d1 =
            ((get_value rest k1 d1).1, (k, v) :: (get_value rest k1 d1).2) := by
          simp [get_value, h1]
        rw [hL1]
        have hL2 : get_value ((k, v) :: (get_value rest k1 d1).2) k2 d2 =
            get_value ((get_value rest k1 d1).2) k2 (some v) := by
          simp [get_value, h2]
        have hR : get_value ((k, v) :: rest) k2 d2 = get_value rest k2 (some v) := by
          simp [get_value, h2]
        rw [hL2, ih d1 (some v), hR]
      · have hL1 : get_value ((k, v) :: rest) k1 d1 =
            ((get_value rest k1 d1).1, (k, v) :: (get_value rest k1 d1).2) := by
          simp [get_value, h1]
        rw [hL1]
        have hL2 : (get_value ((k, v) :: (get_value rest k1 d1).2) k2 d2).1 =
            (get_value ((get_value rest k1 d1).2) k2 d2).1 := by
          simp [get_value, h2]
        have hR : (get_value ((k, v) :: rest) k2 d2).1 = (get_value rest k2 d2).1 := by
          simp [get_value, h2]
        rw [hL2, ih d1 d2, hR]

/-- `get_value` with a `some` default returns the last value when present and
the default otherwise. -/
theorem get_value_fst_default :
    ∀ (kv : List (String × String)) (k d : String),
    (get_value kv k (some d)).1 = some (((get_value kv k none).1).getD d) := by
  intro kv
  induction kv with
  | nil => intro k d; rfl
  | cons e rest ih =>
    intro k d
    rcases e with ⟨ek, ev⟩
    by_cases h : ek = k
    · have hL : ∀ d', get_value ((ek, ev) :: rest) k d' = get_value rest k (some ev) := by
        intro d'
        simp [get_value, h]
      rw [hL (some d), hL none, ih k ev]
      simp
    · have hL : ∀ d', (get_value ((ek, ev) :: rest) k d').1 = (get_value rest k d').1 := by
        intro d'
        simp [get_value, h]
      rw [hL (some d), hL none]
      exact ih k d

/-- A class list none of whose tags is registered dispatches no worker. -/
theorem dispatchClasses_eq_none (l : List String)
    (h : ∀ c ∈ l, workers (toLowerStr c) = none) : dispatchClasses l = none := by
  induction l with
  | nil => rfl
  | cons c rest ih =>
    have hc := h c (List.mem_cons_self c rest)
    simp only [dispatchClasses, hc]
    exact ih fun x hx => h x (List.mem_cons_of_mem c hx)

/-- The first registered class tag wins the dispatch loop. -/
theorem dispatchClasses_first (pre : List String) (c : String) (post : List String)
    (w : WorkerKind) (hpre : ∀ x ∈ pre, workers (toLowerStr x) = none)
    (hc : workers (toLowerStr c) = some w) :
    dispatchClasses (pre ++ c :: post) = some (toLowerStr c, w) := by
  induction pre with
  | nil => simp [dispatchClasses, hc]
  | cons x rest ih =>
    have hx := hpre x (List.mem_cons_self x rest)
    simp only [List.cons_append, dispatchClasses, hx]
    exact ih fun y hy => hpre y (List.mem_cons_of_mem x hy)

/-- Field values of the state built by a successful `Handler.__init__`. -/
theorem Handler.init_ok_fields (hash : CodeBlock → String) (w : WorkerKind)
    (klass : Option String) (codec : CodeBlock) (fs : FS) (h : HandlerState) (g : FS)
    (hinit : Handler.init hash w klass codec fs = .ok (h, g)) :
    h.basename = get_filename4code "pd" (hash codec)
    ∧ h.inpfile = h.basename ++ "." ++ "txt"
    ∧ h.outfile = h.basename ++ "." ++ "png"
    ∧ h.keep = (toLowerStr
        (((get_value (get_value (get_value (get_caption codec.keyvals).2.2
          "options" (some "")).2 "prog" none).2 "keep" (some "")).1).getD "") == "true")
    ∧ h.codec = codec ∧ h.codetxt = codec.code ∧ h.output = "" ∧ h.fext = "png"
    ∧ g = prepInput fs codec.code h.inpfile := by
  simp only [Handler.init] at hinit
  split at hinit
  · exact absurd hinit (by simp)
  · injection hinit with hinj
    injection hinj with h1 h2
    subst h1
    subst h2
    refine ⟨rfl, rfl, rfl, rfl, rfl, rfl, rfl, rfl, rfl⟩

/-- Shape of the node list built by `Handler.Para`. -/
theorem ParaNodes_shape (h : HandlerState) :
    (h.ParaNodes).length = (if h.keep then 2 else 1)
    ∧ (h.keep = true → (h.ParaNodes).head? = some h.anonCodeBlock) := by
  cases hk : h.keep <;> simp [HandlerState.ParaNodes, hk]

/-- Shape of the node list built by `Handler.CodeBlock`. -/
theorem CodeBlockNodes_shape (h : HandlerState) (attr : Attr) (code : String) :
    (h.CodeBlockNodes attr code).length = (if h.keep then 2 else 1)
    ∧ (h.keep = true → (h.CodeBlockNodes attr code).head? = some h.anonCodeBlock) := by
  cases hk : h.keep <;> simp [HandlerState.CodeBlockNodes, hk]

/-! ### Claim theorems -/

/-- C3: with `force` false, an existing output file short-circuits the runner
into success without any invocation, leaving the previously captured output
unchanged; an actual invocation happens only when the output file is absent
or `force` is true. -/
theorem cmd_skip_when_output_exists (runner : Runner) (fs : FS)
    (outfile prevOut : String) (force : Bool) (args : List String) :
    (fs.isfile outfile = true →
      Handler.cmd runner fs outfile prevOut false args =
        { ok := true, output := prevOut, fs := fs, invoked := false, diag := none })
    ∧ ((Handler.cmd runner fs outfile prevOut force args).invoked = true →
        fs.isfile outfile = false ∨ force = true) := by
  constructor
  · intro hf
    simp [Handler.cmd, hf]
  · intro hinv
    by_cases hf : fs.isfile outfile = true
    · cases force with
      | false => simp [Handler.cmd, hf] at hinv
      | true => exact Or.inr rfl
    · exact Or.inl (by simpa using hf)

/-- Witness for `cmd_skip_when_output_exists`. -/
theorem cmd_skip_when_output_exists_witness :
    (FS.isfile ⟨[("o", "x")]⟩ "o" = true) ∧
    (Handler.cmd (fun _ => Except.ok "y") ⟨[("o", "x")]⟩ "o" "" false ["p"] =
      { ok := true, output := "", fs := ⟨[("o", "x")]⟩, invoked := false, diag := none }) :=
  ⟨by decide,
   (cmd_skip_when_output_exists (fun _ => Except.ok "y") ⟨[("o", "x")]⟩ "o" "" false ["p"]).1
     (by decide)⟩

/-- C4: on a non-zero exit the runner deletes the output file (best-effort),
reports failure with the captured combined output as diagnostic, and a
calling handler (here `Figlet`) then returns the no-change sentinel. -/
theorem cmd_failure_cleanup (runner : Runner) (fs : FS)
    (outfile prevOut eout : String) (force : Bool) (args : List String)
    (h : HandlerState)
    (hrun : runner args = .error eout)
    (hgo : fs.isfile outfile = false ∨ force = true) :
    Handler.cmd runner fs outfile prevOut force args =
      { ok := false, output := prevOut, fs := fs.remove outfile, invoked := true,
        diag := some eout }
    ∧ (fs.remove outfile).isfile outfile = false
    ∧ (runner (h.prog :: (splitWs h.options ++ [h.codetxt])) = .error eout →
        fs.isfile h.outfile = false →
        (Figlet.image runner fs h).nodes = none
        ∧ (Figlet.image runner fs h).fs = fs.remove h.outfile
        ∧ (Figlet.image runner fs h).diag = some eout) := by
  have hcmd : Handler.cmd runner fs outfile prevOut force args =
      { ok := false, output := prevOut, fs := fs.remove outfile, invoked := true,
        diag := some eout } := by
    rcases hgo with hf | hforce
    · simp [Handler.cmd, hf, hrun]
    · subst hforce
      simp [Handler.cmd, hrun]
  refine ⟨hcmd, FS.isfile_remove fs outfile, ?_⟩
  intro hrunf houtf
  simp [Figlet.image, Handler.cmd, houtf, hrunf]

/-- Witness for `cmd_failure_cleanup`. -/
theorem cmd_failure_cleanup_witness :
    ((fun _ => Except.error "boom" : Runner) ["p"] = .error "boom"
      ∧ (FS.isfile ⟨[("o", "x")]⟩ "q" = false ∨ False))
    ∧ Handler.cmd (fun _ => Except.error "boom") ⟨[("o", "x")]⟩ "q" "" false ["p"] =
      { ok := false, output := "", fs := FS.remove ⟨[("o", "x")]⟩ "q", invoked := true,
        diag := some "boom" } :=
  ⟨⟨rfl, Or.inl (by decide)⟩,
   ((cmd_failure_cleanup (fun _ => Except.error "boom") ⟨[("o", "x")]⟩ "q" "" "boom"
      false ["p"] ⟨⟨"", [], [], ""⟩, "", [], [], none, "", "", "", false, "", "", "", "", "", ""⟩
      rfl (Or.inl (by decide))).1)⟩

/-- C6: a block with no registered class tag and no matching `prog` value
dispatches to the default handler, whose produce operation keeps the block
unchanged for every content and target format, without raising. -/
theorem unmatched_dispatch_default (hash : CodeBlock → String) (runner : Runner)
    (format : String) (fs : FS) (cb : CodeBlock)
    (hcls : ∀ c ∈ cb.classes, workers (toLowerStr c) = none)
    (hprog : cb.keyvals = [] ∨
      workers (toLowerStr (((get_value cb.keyvals "prog" (some "")).1).getD "")) = none) :
    dispatch cb = .default
    ∧ processBlock hash runner format fs cb =
        .ok { nodes := none, fs := fs, output := "", invoked := false, diag := none } := by
  have hd : dispatch cb = .default := by
    simp only [dispatch, dispatchClasses_eq_none cb.classes hcls]
    rcases hprog with hkv | hw
    · simp [hkv]
    · by_cases hkv : cb.keyvals = []
      · simp [hkv]
      · simp [hkv, hw]
  exact ⟨hd, by simp [processBlock, hd]⟩

/-- Witness for `unmatched_dispatch_default`. -/
theorem unmatched_dispatch_default_witness :
    (workers (toLowerStr "nonexistent-tag") = none ∧ ([] : List (String × String)) = [])
    ∧ processBlock (fun _ => "h") (fun _ => Except.ok "y") "html" ⟨[]⟩
        ⟨"", ["nonexistent-tag"], [], "code"⟩ =
      .ok { nodes := none, fs := ⟨[]⟩, output := "", invoked := false, diag := none } :=
  ⟨⟨by decide, rfl⟩,
   (unmatched_dispatch_default (fun _ => "h") (fun _ => Except.ok "y") "html" ⟨[]⟩
      ⟨"", ["nonexistent-tag"], [], "code"⟩ (by decide) (Or.inl rfl)).2⟩

/-- C1: the first class tag registered in the handler registry decides the
dispatch, whatever the keyvals (in particular a conflicting `prog` value);
classes `["dot"]` with `prog="figlet"` dispatch to the Graphviz worker. -/
theorem dispatch_class_priority (id_ code : String) (kvs : List (String × String))
    (pre post : List String) (c : String) (w : WorkerKind)
    (hpre : ∀ x ∈ pre, workers (toLowerStr x) = none)
    (hc : workers (toLowerStr c) = some w) :
    dispatch ⟨id_, pre ++ c :: post, kvs, code⟩ = .byClass w (toLowerStr c)
    ∧ dispatch ⟨id_, ["dot"], [("prog", "figlet")], code⟩ = .byClass .graphviz "dot" := by
  constructor
  · simp only [dispatch, dispatchClasses_first pre c post w hpre hc]
  · rfl

/-- Witness for `dispatch_class_priority`. -/
theorem dispatch_class_priority_witness :
    (workers (toLowerStr "dot") = some .graphviz)
    ∧ dispatch ⟨"", [] ++ "dot" :: [], [("prog", "figlet")], "digraph G \x7b\x7d"⟩ =
        .byClass .graphviz (toLowerStr "dot") :=
  ⟨by decide,
   (dispatch_class_priority "" "digraph G \x7b\x7d" [("prog", "figlet")] [] [] "dot"
      .graphviz (by decide) (by decide)).1⟩

/-- C8: the `plot` worker treats the block's content as a path; when no file
exists there, produce fails without invoking any external process, leaving
the filesystem untouched and the block unchanged. -/
theorem plot_missing_input_no_invoke (runner : Runner) (format : String)
    (fs : FS) (h : HandlerState)
    (hmiss : fs.isfile h.codetxt = false) :
    (PlotUtilPlot.image runner format fs h).nodes = none
    ∧ (PlotUtilPlot.image runner format fs h).invoked = false
    ∧ (PlotUtilPlot.image runner format fs h).fs = fs := by
  simp [PlotUtilPlot.image, HandlerState.runFmt, hmiss]

/-- Witness for `plot_missing_input_no_invoke`. -/
theorem plot_missing_input_no_invoke_witness :
    (FS.isfile ⟨[]⟩ "nofile.meta" = false)
    ∧ (PlotUtilPlot.image (fun _ => Except.ok "y") "html" ⟨[]⟩
        ⟨⟨"", ["plot"], [], "nofile.meta"⟩, "", ["plot"], [], none, "", "", "plot", false,
          "pd-images/h", "png", "pd-images/h.png", "pd-images/h.txt", "nofile.meta", ""⟩).nodes
      = none :=
  ⟨by decide,
   (plot_missing_input_no_invoke (fun _ => Except.ok "y") "html" ⟨[]⟩
      ⟨⟨"", ["plot"], [], "nofile.meta"⟩, "", ["plot"], [], none, "", "", "plot", false,
        "pd-images/h", "png", "pd-images/h.png", "pd-images/h.txt", "nofile.meta", ""⟩
      (by decide)).1⟩

theorem prepInput_idem (fs : FS) (d inp : String) :
    prepInput (prepInput fs d inp) d inp = prepInput fs d inp := by
  unfold prepInput Handler.write
  by_cases hi : fs.isfile inp
  · simp [hi]
  · by_cases hl : d.length = 0
    · simp [hi, hl]
    · simp [hi, hl, FS.isfile_insert_self]

theorem prepInput_isfile_ne (fs : FS) (d inp q : String) (h : q ≠ inp) :
    (prepInput fs d inp).isfile q = fs.isfile q := by
  unfold prepInput Handler.write
  by_cases hi : fs.isfile inp
  · simp [hi]
  · by_cases hl : d.length = 0
    · simp [hi, hl]
    · simp [hi, hl, FS.isfile_insert_ne _ _ _ _ h]

theorem prepInput_insert (fs : FS) (d inp outf o : String) (hne : inp ≠ outf) :
    prepInput ((prepInput fs d inp).insert outf o) d inp =
      (prepInput fs d inp).insert outf o := by
  unfold prepInput Handler.write
  by_cases hi : fs.isfile inp
  · simp [hi, FS.isfile_insert_ne _ _ _ _ hne]
  · by_cases hl : d.length = 0
    · simp [hi, hl, FS.isfile_insert_ne _ _ _ _ hne]
    · simp [hi, hl, FS.isfile_insert_ne _ _ _ _ hne, FS.isfile_insert_self]

theorem FS.isfile_insert_mono (fs : FS) (p q d : String) (hq : fs.isfile q = true) :
    (fs.insert p d).isfile q = true := by
  by_cases hpq : q = p
  · subst hpq
    exact FS.isfile_insert_self fs q d
  · rw [FS.isfile_insert_ne fs p q d hpq]
    exact hq

theorem prepInput_isfile_mono (fs : FS) (d inp q : String) (hq : fs.isfile q = true) :
    (prepInput fs d inp).isfile q = true := by
  unfold prepInput Handler.write
  by_cases hi : fs.isfile inp
  · simp [hi, hq]
  · by_cases hl : d.length = 0
    · simp [hi, hl, hq]
    · simp [hi, hl]
      exact FS.isfile_insert_mono fs inp q d hq

/-- A successful `Handler.__init__` is insensitive to the filesystem except
through the input-file write: the decoded state is the same on any
filesystem, and the returned filesystem is `prepInput`. -/
theorem Handler.init_fs_irrelevant (hash : CodeBlock → String) (w : WorkerKind)
    (klass : Option String) (codec : CodeBlock) (fs1 fs2 : FS) (h : HandlerState)
    (g1 : FS)
    (h1 : Handler.init hash w klass codec fs1 = .ok (h, g1)) :
    g1 = prepInput fs1 codec.code h.inpfile
    ∧ Handler.init hash w klass codec fs2 =
        .ok (h, prepInput fs2 codec.code h.inpfile) := by
  simp only [Handler.init] at h1 ⊢
  cases hpr : resolveProg w klass
      (get_value (get_value (get_caption codec.keyvals).2.2 "options" (some "")).2
        "prog" none).1 with
  | none =>
    rw [hpr] at h1
    exact Except.noConfusion h1
  | some prog =>
    rw [hpr] at h1
    injection h1 with h2
    injection h2 with hh hg
    subst hh
    subst hg
    exact ⟨rfl, rfl⟩

/-- For a state built by `Handler.__init__`, `Handler.fmt` with the default
`"png"` extension is the identity whatever the document format. -/
theorem runFmt_eq_self (format : String) (h : HandlerState)
    (hfe : h.fext = "png") (ho : h.outfile = h.basename ++ "." ++ "png") :
    h.runFmt format "png" = h := by
  show ({ h with fext := "png", outfile := h.basename ++ "." ++ "png" } : HandlerState) = h
  rw [← ho, ← hfe]

theorem length_ne_zero_of_ne_empty (s : String) (h : s ≠ "") : s.length ≠ 0 := by
  intro h0
  apply h
  apply String.ext
  have : s.data.length = 0 := h0
  simpa using List.length_eq_zero.mp this

/-- C10: when the output file already exists and `force` is false, the
plot/graph/pic2plot workers leave the cached artifact untouched: the runner
reports success without executing, the captured output stays empty, and the
zero-byte write is skipped instead of truncating the file. -/
theorem cache_hit_preserves_artifact (runner : Runner) (format : String)
    (fs : FS) (h : HandlerState)
    (hout : h.output = "")
    (hfile : fs.isfile ((h.runFmt format "png").outfile) = true)
    (hsrc : fs.isfile h.codetxt = true) :
    ((PlotUtilPlot.image runner format fs h).fs = fs
      ∧ (PlotUtilPlot.image runner format fs h).invoked = false
      ∧ (PlotUtilPlot.image runner format fs h).output = ""
      ∧ (PlotUtilPlot.image runner format fs h).nodes =
          some ((h.runFmt format "png").ParaNodes))
    ∧ ((PlotUtilsGraph.image runner format fs h).fs = fs
      ∧ (PlotUtilsGraph.image runner format fs h).invoked = false
      ∧ (PlotUtilsGraph.image runner format fs h).output = ""
      ∧ (PlotUtilsGraph.image runner format fs h).nodes =
          some ((h.runFmt format "png").ParaNodes))
    ∧ ((Pic2Plot.image runner format fs h).fs = fs
      ∧ (Pic2Plot.image runner format fs h).invoked = false
      ∧ (Pic2Plot.image runner format fs h).output = ""
      ∧ (Pic2Plot.image runner format fs h).nodes =
          some ((h.runFmt format "png").ParaNodes)) := by
  refine ⟨?_, ?_, ?_⟩
  · simp [PlotUtilPlot.image, HandlerState.runFmt, Handler.cmd, Handler.write,
      hout, hsrc] at hfile ⊢
    simp [hfile]
  · simp [PlotUtilsGraph.image, HandlerState.runFmt, Handler.cmd, Handler.write,
      hout] at hfile ⊢
    simp [hfile]
  · simp [Pic2Plot.image, HandlerState.runFmt, Handler.cmd, Handler.write,
      hout] at hfile ⊢
    simp [hfile]

/-- Witness for `cache_hit_preserves_artifact`. -/
theorem cache_hit_preserves_artifact_witness :
    (("" : String) = "" ∧
      FS.isfile ⟨[("pd-images/h.png", "OLD"), ("src.meta", "S")]⟩
        ((HandlerState.runFmt ⟨⟨"", ["plot"], [], "src.meta"⟩, "", ["plot"], [], none, "",
          "", "plot", false, "pd-images/h", "png", "pd-images/h.png", "pd-images/h.txt",
          "src.meta", ""⟩ "html" "png").outfile) = true ∧
      FS.isfile ⟨[("pd-images/h.png", "OLD"), ("src.meta", "S")]⟩ "src.meta" = true)
    ∧ (PlotUtilPlot.image (fun _ => Except.ok "NEW") "html"
        ⟨[("pd-images/h.png", "OLD"), ("src.meta", "S")]⟩
        ⟨⟨"", ["plot"], [], "src.meta"⟩, "", ["plot"], [], none, "", "", "plot", false,
          "pd-images/h", "png", "pd-images/h.png", "pd-images/h.txt", "src.meta", ""⟩).fs =
      ⟨[("pd-images/h.png", "OLD"), ("src.meta", "S")]⟩ :=
  ⟨⟨rfl, by decide, by decide⟩,
   ((cache_hit_preserves_artifact (fun _ => Except.ok "NEW") "html"
      ⟨[("pd-images/h.png", "OLD"), ("src.meta", "S")]⟩
      ⟨⟨"", ["plot"], [], "src.meta"⟩, "", ["plot"], [], none, "", "", "plot", false,
        "pd-images/h", "png", "pd-images/h.png", "pd-images/h.txt", "src.meta", ""⟩
      rfl (by decide) (by decide)).1).1⟩

/-- One full run of a bare `figlet` block (no keyvals) whose output file is
not cached: the program is invoked on the encoded content and the captured
stdout becomes the replacement CodeBlock body. -/
theorem processFiglet_eq (hash : CodeBlock → String) (runner : Runner)
    (format : String) (fs : FS) (i code out : String)
    (hrun : runner ["figlet", code] = .ok out)
    (hnof : (prepInput fs code
        (get_filename4code "pd" (hash ⟨i, ["figlet"], [], code⟩) ++ "." ++ "txt")).isfile
        (get_filename4code "pd" (hash ⟨i, ["figlet"], [], code⟩) ++ "." ++ "png") = false) :
    processBlock hash runner format fs ⟨i, ["figlet"], [], code⟩ =
      .ok { nodes := some [Node.codeBlock ⟨i, ["figlet"], []⟩ out],
            fs := prepInput fs code
              (get_filename4code "pd" (hash ⟨i, ["figlet"], [], code⟩) ++ "." ++ "txt"),
            output := out, invoked := true, diag := none } := by
  have hd : dispatch ⟨i, ["figlet"], [], code⟩ = .byClass .figlet "figlet" := rfl
  have hinit : Handler.init hash .figlet (some "figlet") ⟨i, ["figlet"], [], code⟩ fs =
      .ok (⟨⟨i, ["figlet"], [], code⟩, i, ["figlet"], [], none, "", "", "figlet", false,
        get_filename4code "pd" (hash ⟨i, ["figlet"], [], code⟩), "png",
        get_filename4code "pd" (hash ⟨i, ["figlet"], [], code⟩) ++ "." ++ "png",
        get_filename4code "pd" (hash ⟨i, ["figlet"], [], code⟩) ++ "." ++ "txt",
        code, ""⟩,
      prepInput fs code
        (get_filename4code "pd" (hash ⟨i, ["figlet"], [], code⟩) ++ "." ++ "txt")) := rfl
  simp only [processBlock, hd, runWorker, hinit, workerImage, Figlet.image, Handler.cmd,
    splitWs, splitWsAux, String.data, List.nil_append, hnof, Bool.false_and,
    Bool.if_false_left, hrun]
  simp [hrun, HandlerState.CodeBlockNodes, CodeBlock.attr]

/-- C9: an input block with classes `["figlet"]`, content `"HI"` and empty
options invokes the program `figlet` with the single argument `"HI"`, and on
success the replacement is one CodeBlock whose body is the captured stdout
and which carries the original identity, classes, and keyvals. -/
theorem figlet_end_to_end (hash : CodeBlock → String) (runner : Runner)
    (format : String) (fs : FS) (i out : String)
    (hrun : runner ["figlet", "HI"] = .ok out)
    (hnof : fs.isfile
      (get_filename4code "pd" (hash ⟨i, ["figlet"], [], "HI"⟩) ++ "." ++ "png") = false) :
    processBlock hash runner format fs ⟨i, ["figlet"], [], "HI"⟩ =
      .ok { nodes := some [Node.codeBlock ⟨i, ["figlet"], []⟩ out],
            fs := prepInput fs "HI"
              (get_filename4code "pd" (hash ⟨i, ["figlet"], [], "HI"⟩) ++ "." ++ "txt"),
            output := out, invoked := true, diag := none } := by
  apply processFiglet_eq hash runner format fs i "HI" out hrun
  rw [prepInput_isfile_ne]
  · exact hnof
  · exact fun hcontra => txt_ne_png _ hcontra.symm

/-- Witness for `figlet_end_to_end`. -/
theorem figlet_end_to_end_witness :
    ((fun a => if a = ["figlet", "HI"] then Except.ok " _  _ ___ " else Except.error "?" :
        Runner) ["figlet", "HI"] = .ok " _  _ ___ "
      ∧ FS.isfile ⟨[]⟩
          (get_filename4code "pd" ((fun _ => "h") (⟨"x1", ["figlet"], [], "HI"⟩ : CodeBlock))
            ++ "." ++ "png") = false)
    ∧ processBlock (fun _ => "h")
        (fun a => if a = ["figlet", "HI"] then Except.ok " _  _ ___ " else Except.error "?")
        "html" ⟨[]⟩ ⟨"x1", ["figlet"], [], "HI"⟩ =
      .ok { nodes := some [Node.codeBlock ⟨"x1", ["figlet"], []⟩ " _  _ ___ "],
            fs := prepInput ⟨[]⟩ "HI"
              (get_filename4code "pd" ((fun _ => "h") (⟨"x1", ["figlet"], [], "HI"⟩ : CodeBlock))
                ++ "." ++ "txt"),
            output := " _  _ ___ ", invoked := true, diag := none } :=
  ⟨⟨rfl, by decide⟩,
   figlet_end_to_end (fun _ => "h")
     (fun a => if a = ["figlet", "HI"] then Except.ok " _  _ ___ " else Except.error "?")
     "html" ⟨[]⟩ "x1" " _  _ ___ " rfl (by decide)⟩

/-- C7: cache-path derivation is deterministic — equal blocks resolve to
equal basename, input path and output path — and the hash input incorporates
the entire block, so blocks whose hashed identity strings differ resolve to
different paths. -/
theorem cache_path_deterministic (hash : CodeBlock → String) (w : WorkerKind)
    (klass : Option String) (c1 c2 : CodeBlock) (fs1 fs2 g1 g2 : FS)
    (h1 h2 : HandlerState)
    (i1 : Handler.init hash w klass c1 fs1 = .ok (h1, g1))
    (i2 : Handler.init hash w klass c2 fs2 = .ok (h2, g2)) :
    (c1 = c2 →
      h1.basename = h2.basename ∧ h1.inpfile = h2.inpfile ∧ h1.outfile = h2.outfile)
    ∧ (hash c1 ≠ hash c2 →
      h1.basename ≠ h2.basename ∧ h1.inpfile ≠ h2.inpfile ∧ h1.outfile ≠ h2.outfile) := by
  obtain ⟨hb1, hi1, ho1, -⟩ := Handler.init_ok_fields hash w klass c1 fs1 h1 g1 i1
  obtain ⟨hb2, hi2, ho2, -⟩ := Handler.init_ok_fields hash w klass c2 fs2 h2 g2 i2
  have hbase : ∀ x y : String, x ≠ y →
      get_filename4code "pd" x ≠ get_filename4code "pd" y := by
    intro x y hxy hcontra
    exact hxy (strApp_left_inj ("pd" ++ "-images/") x y (by
      simpa [get_filename4code, String.append_assoc] using hcontra))
  constructor
  · intro hc
    subst hc
    refine ⟨by rw [hb1, hb2], by rw [hi1, hi2, hb1, hb2], by rw [ho1, ho2, hb1, hb2]⟩
  · intro hh
    have hbn : h1.basename ≠ h2.basename := by
      rw [hb1, hb2]
      exact hbase _ _ hh
    refine ⟨hbn, ?_, ?_⟩
    · rw [hi1, hi2]
      intro hcontra
      exact hbn (strApp_right_inj "." _ _ (strApp_right_inj "txt" _ _ hcontra))
    · rw [ho1, ho2]
      intro hcontra
      exact hbn (strApp_right_inj "." _ _ (strApp_right_inj "png" _ _ hcontra))

/-- Witness for `cache_path_deterministic`. -/
theorem cache_path_deterministic_witness :
    ((fun c : CodeBlock => c.code) ⟨"", ["figlet"], [], "a"⟩ ≠
      (fun c : CodeBlock => c.code) ⟨"", ["figlet"], [], "b"⟩)
    ∧ ("pd-images/a" : String) ≠ "pd-images/b" :=
  ⟨by decide,
   (((cache_path_deterministic (fun c : CodeBlock => c.code) .figlet (some "figlet")
      ⟨"", ["figlet"], [], "a"⟩ ⟨"", ["figlet"], [], "b"⟩ ⟨[]⟩ ⟨[]⟩
      ⟨[("pd-images/a.txt", "a")]⟩ ⟨[("pd-images/b.txt", "b")]⟩
      ⟨⟨"", ["figlet"], [], "a"⟩, "", ["figlet"], [], none, "", "", "figlet", false,
        "pd-images/a", "png", "pd-images/a.png", "pd-images/a.txt", "a", ""⟩
      ⟨⟨"", ["figlet"], [], "b"⟩, "", ["figlet"], [], none, "", "", "figlet", false,
        "pd-images/b", "png", "pd-images/b.png", "pd-images/b.txt", "b", ""⟩
      rfl rfl).2) (by decide)).1⟩

theorem get_caption_snd (kv : List (String × String)) :
    (get_caption kv).2.2 = (get_value kv "caption" none).2 := by
  unfold get_caption
  cases hv : (get_value kv "caption" none).1 <;> simp [hv]

/-- The `keep` flag decoded by `Handler.__init__` is the lowercased last
`keep` value compared against `"true"`. -/
theorem init_keep_eq (hash : CodeBlock → String) (w : WorkerKind)
    (klass : Option String) (codec : CodeBlock) (fs g : FS) (h : HandlerState)
    (hinit : Handler.init hash w klass codec fs = .ok (h, g)) :
    h.keep = (toLowerStr ((lastValue codec.keyvals "keep").getD "") == "true") := by
  obtain ⟨-, -, -, hk, -⟩ :=
    Handler.init_ok_fields hash w klass codec fs h g hinit
  rw [hk, get_caption_snd,
    get_value_pop_fst "prog" "keep" (by decide),
    get_value_pop_fst "options" "keep" (by decide),
    get_value_pop_fst "caption" "keep" (by decide),
    get_value_fst_default]
  simp [lastValue]

/-- C5 counterexample: an `imagine` block with `keep="true"` is successfully
processed (the decoded keep flag is true) yet yields a single output node,
not two. -/
theorem imagine_keep_single_node_cex :
    (Except.map (fun hf => hf.1.keep)
        (Handler.init (fun _ => "h") .imagine (some "imagine")
          ⟨"", ["imagine"], [("keep", "true")], "x"⟩ ⟨[]⟩) = .ok true)
    ∧ Option.map List.length
        (resOf (processBlock (fun _ => "h") (fun _ => Except.ok "y") "html" ⟨[]⟩
          ⟨"", ["imagine"], [("keep", "true")], "x"⟩)).nodes = some 1 :=
  ⟨rfl, rfl⟩

/-- C5 (amended): the keep directive is true iff the block carries a `keep`
keyval whose value matches `"true"` case-insensitively, and every worker
other than the self-documenting `imagine` worker produces, on success,
exactly two nodes (reconstructed original first) when keep is true and
exactly one node otherwise. -/
theorem keep_semantics_amended (hash : CodeBlock → String) (w : WorkerKind)
    (klass : Option String) (codec : CodeBlock) (fs g : FS) (h : HandlerState)
    (hinit : Handler.init hash w klass codec fs = .ok (h, g)) :
    (h.keep = true ↔
      ∃ v, lastValue codec.keyvals "keep" = some v ∧ toLowerStr v = "true")
    ∧ (∀ (runner : Runner) (format : String) (fs' : FS) (l : List Node),
        w ≠ .imagine →
        (workerImage w runner format fs' h).nodes = some l →
        l.length = (if h.keep then 2 else 1)
        ∧ (h.keep = true → l.head? = some h.anonCodeBlock)) := by
  constructor
  · rw [init_keep_eq hash w klass codec fs g h hinit]
    cases hv : lastValue codec.keyvals "keep" with
    | none =>
      have hf : (toLowerStr (Option.getD none "") == "true") = false := by decide
      rw [hf]
      simp
    | some v =>
      simp only [Option.getD_some, Option.some.injEq, beq_iff_eq]
      constructor
      · intro hveq
        exact ⟨v, rfl, hveq⟩
      · rintro ⟨u, rfl, hu⟩
        exact hu
  · intro runner format fs' l hne hnodes
    cases w with
    | imagine => exact absurd rfl hne
    | figlet =>
      simp only [workerImage, Figlet.image] at hnodes
      split at hnodes
      · simp only [Option.some.injEq] at hnodes
        subst hnodes
        exact CodeBlockNodes_shape h _ _
      · simp at hnodes
    | boxes =>
      simp only [workerImage, Boxes.image] at hnodes
      split at hnodes
      · simp only [Option.some.injEq] at hnodes
        subst hnodes
        exact CodeBlockNodes_shape h _ _
      · simp at hnodes
    | protocol =>
      simp only [workerImage, Protocol.image] at hnodes
      split at hnodes
      · simp only [Option.some.injEq] at hnodes
        subst hnodes
        exact CodeBlockNodes_shape h _ _
      · simp at hnodes
    | plotUtilPlot =>
      simp only [workerImage, PlotUtilPlot.image] at hnodes
      split at hnodes
      · split at hnodes
        · simp only [Option.some.injEq] at hnodes
          subst hnodes
          exact ParaNodes_shape _
        · simp at hnodes
      · simp at hnodes
    | plotUtilsGraph =>
      simp only [workerImage, PlotUtilsGraph.image] at hnodes
      split at hnodes
      · simp only [Option.some.injEq] at hnodes
        subst hnodes
        exact ParaNodes_shape _
      · simp at hnodes
    | pic2Plot =>
      simp only [workerImage, Pic2Plot.image] at hnodes
      split at hnodes
      · simp only [Option.some.injEq] at hnodes
        subst hnodes
        exact ParaNodes_shape _
      · simp at hnodes
    | plantUml =>
      simp only [workerImage, PlantUml.image] at hnodes
      split at hnodes
      · simp only [Option.some.injEq] at hnodes
        subst hnodes
        exact ParaNodes_shape _
      · simp at hnodes
    | mermaid =>
      simp only [workerImage, Mermaid.image] at hnodes
      split at hnodes
      · simp only [Option.some.injEq] at hnodes
        subst hnodes
        exact ParaNodes_shape _
      · simp at hnodes
    | ditaa =>
      simp only [workerImage, Ditaa.image] at hnodes
      split at hnodes
      · simp only [Option.some.injEq] at hnodes
        subst hnodes
        exact ParaNodes_shape _
      · simp at hnodes
    | mscGen =>
      simp only [workerImage, MscGen.image] at hnodes
      split at hnodes
      · simp only [Option.some.injEq] at hnodes
        subst hnodes
        exact ParaNodes_shape _
      · simp at hnodes
    | blockDiag =>
      simp only [workerImage, BlockDiag.image] at hnodes
      split at hnodes
      · simp only [Option.some.injEq] at hnodes
        subst hnodes
        exact ParaNodes_shape _
      · simp at hnodes
    | graphviz =>
      simp only [workerImage, Graphviz.image] at hnodes
      split at hnodes
      · simp only [Option.some.injEq] at hnodes
        subst hnodes
        exact ParaNodes_shape _
      · simp at hnodes

/-- Witness for `keep_semantics_amended`. -/
theorem keep_semantics_amended_witness :
    (Handler.init (fun _ => "h") .figlet (some "figlet")
        ⟨"", ["figlet"], [("keep", "TRUE")], "x"⟩ ⟨[]⟩ =
      .ok (⟨⟨"", ["figlet"], [("keep", "TRUE")], "x"⟩, "", ["figlet"], [], none, "", "",
        "figlet", true, "pd-images/h", "png", "pd-images/h.png", "pd-images/h.txt",
        "x", ""⟩, ⟨[("pd-images/h.txt", "x")]⟩))
    ∧ ((⟨⟨"", ["figlet"], [("keep", "TRUE")], "x"⟩, "", ["figlet"], [], none, "", "",
        "figlet", true, "pd-images/h", "png", "pd-images/h.png", "pd-images/h.txt",
        "x", ""⟩ : HandlerState).keep = true ↔
      ∃ v, lastValue [("keep", "TRUE")] "keep" = some v ∧ toLowerStr v = "true") :=
  ⟨rfl,
   (keep_semantics_amended (fun _ => "h") .figlet (some "figlet")
      ⟨"", ["figlet"], [("keep", "TRUE")], "x"⟩ ⟨[]⟩ ⟨[("pd-images/h.txt", "x")]⟩
      ⟨⟨"", ["figlet"], [("keep", "TRUE")], "x"⟩, "", ["figlet"], [], none, "", "",
        "figlet", true, "pd-images/h", "png", "pd-images/h.png", "pd-images/h.txt",
        "x", ""⟩ rfl).1⟩


/-- C2 counterexample: a `figlet` block processed twice against the cache
area left by the first run still invokes the external program on the second
run — the claimed zero-invocation cache hit fails for the stdout-capturing
variants. -/
theorem stdout_variant_reinvokes_cex :
    (resOf (processBlock (fun _ => "h") (fun _ => Except.ok "ART") "html"
      (resOf (processBlock (fun _ => "h") (fun _ => Except.ok "ART") "html" ⟨[]⟩
        ⟨"", ["figlet"], [], "HI"⟩)).fs ⟨"", ["figlet"], [], "HI"⟩)).invoked = true := by
  decide

/-- C2 (amended): reprocessing any CodeBlock (arbitrary identity, classes,
keyvals and content, dispatched by class tag or by `prog`) against the cache
area left by the first run yields byte-identical results, but the
zero-invocation cache hit holds only for the workers whose artifact is the
written output file: plot, graph and pic2plot skip the program and leave the
filesystem and nodes unchanged on the second run; every worker skips the
program once the output file exists; the stdout-capturing workers (figlet,
boxes, protocol) never create the output file, so each of the two runs
invokes the external program, while nodes and captured output stay
byte-identical. -/
theorem cache_idempotence_amended (hash : CodeBlock → String) (runner : Runner)
    (format : String) (fs : FS) (cb : CodeBlock) (w : WorkerKind) (k : String)
    (klass : Option String) (h : HandlerState) (g : FS) (out : String)
    (hrun : ∀ args, runner args = .ok out)
    (hne : out ≠ "")
    (hdisp : (dispatch cb = .byClass w k ∧ klass = some k) ∨
      (dispatch cb = .byProg w ∧ klass = none))
    (hinit : Handler.init hash w klass cb fs = .ok (h, g)) :
    ((w = .figlet ∨ w = .boxes ∨ w = .protocol) →
      fs.isfile h.outfile = false →
      (resOf (processBlock hash runner format fs cb)).invoked = true
      ∧ (resOf (processBlock hash runner format
          (resOf (processBlock hash runner format fs cb)).fs cb)).invoked = true
      ∧ (resOf (processBlock hash runner format
          (resOf (processBlock hash runner format fs cb)).fs cb)).nodes =
        (resOf (processBlock hash runner format fs cb)).nodes
      ∧ (resOf (processBlock hash runner format
          (resOf (processBlock hash runner format fs cb)).fs cb)).output =
        (resOf (processBlock hash runner format fs cb)).output)
    ∧ ((w = .plotUtilsGraph ∨ w = .pic2Plot) →
      (resOf (processBlock hash runner format
          (resOf (processBlock hash runner format fs cb)).fs cb)).invoked = false
      ∧ (resOf (processBlock hash runner format
          (resOf (processBlock hash runner format fs cb)).fs cb)).fs =
        (resOf (processBlock hash runner format fs cb)).fs
      ∧ (resOf (processBlock hash runner format
          (resOf (processBlock hash runner format fs cb)).fs cb)).nodes =
        (resOf (processBlock hash runner format fs cb)).nodes)
    ∧ (w = .plotUtilPlot → fs.isfile cb.code = true →
      (resOf (processBlock hash runner format
          (resOf (processBlock hash runner format fs cb)).fs cb)).invoked = false
      ∧ (resOf (processBlock hash runner format
          (resOf (processBlock hash runner format fs cb)).fs cb)).fs =
        (resOf (processBlock hash runner format fs cb)).fs
      ∧ (resOf (processBlock hash runner format
          (resOf (processBlock hash runner format fs cb)).fs cb)).nodes =
        (resOf (processBlock hash runner format fs cb)).nodes)
    ∧ (∀ (w2 : WorkerKind) (fs2 : FS), fs2.isfile h.outfile = true →
      (workerImage w2 runner format fs2 h).invoked = false) := by
  have hpb : ∀ (fs' : FS) (h' : HandlerState) (g' : FS),
      Handler.init hash w klass cb fs' = .ok (h', g') →
      processBlock hash runner format fs' cb = .ok (workerImage w runner format g' h') := by
    intro fs' h' g' hI
    rcases hdisp with ⟨hd, hk⟩ | ⟨hd, hk⟩ <;> subst hk <;>
      simp [processBlock, hd, runWorker, hI]
  have hfs1 := (Handler.init_fs_irrelevant hash w klass cb fs fs h g hinit).1
  have hinit2 : ∀ fs2, Handler.init hash w klass cb fs2 =
      .ok (h, prepInput fs2 cb.code h.inpfile) :=
    fun fs2 => (Handler.init_fs_irrelevant hash w klass cb fs fs2 h g hinit).2
  obtain ⟨hb, hi, ho, -, -, hct, hout0, hfe, -⟩ :=
    Handler.init_ok_fields hash w klass cb fs h g hinit
  have hio : h.inpfile ≠ h.outfile := by
    rw [hi, ho]
    exact txt_ne_png _
  have hRF : h.runFmt format "png" = h := runFmt_eq_self format h hfe ho
  have hpb1 : processBlock hash runner format fs cb =
      .ok (workerImage w runner format (prepInput fs cb.code h.inpfile) h) := by
    have hp := hpb fs h g hinit
    rw [hfs1] at hp
    exact hp
  have hpb2 : ∀ fs2, processBlock hash runner format fs2 cb =
      .ok (workerImage w runner format (prepInput fs2 cb.code h.inpfile) h) :=
    fun fs2 => hpb fs2 h _ (hinit2 fs2)
  have hidem : prepInput (prepInput fs cb.code h.inpfile) cb.code h.inpfile =
      prepInput fs cb.code h.inpfile := prepInput_idem fs cb.code h.inpfile
  have hlen : ¬ out.length = 0 := length_ne_zero_of_ne_empty out hne
  refine ⟨?_, ?_, ?_, ?_⟩
  · rintro hw hof
    have hof1 : (prepInput fs cb.code h.inpfile).isfile h.outfile = false := by
      rw [prepInput_isfile_ne _ _ _ _ (Ne.symm hio)]
      exact hof
    rcases hw with rfl | rfl | rfl
    · have him : Figlet.image runner (prepInput fs cb.code h.inpfile) h =
          { nodes := some (h.CodeBlockNodes h.codec.attr out),
            fs := prepInput fs cb.code h.inpfile, output := out, invoked := true,
            diag := none } := by
        simp [Figlet.image, Handler.cmd, hof1, hrun]
      rw [hpb1]
      simp only [workerImage, him, resOf]
      rw [hpb2 (prepInput fs cb.code h.inpfile), hidem]
      simp only [workerImage, him, resOf]
      exact ⟨trivial, trivial, trivial, trivial⟩
    · have him : Boxes.image runner (prepInput fs cb.code h.inpfile) h =
          { nodes := some (h.CodeBlockNodes h.codec.attr out),
            fs := prepInput fs cb.code h.inpfile, output := out, invoked := true,
            diag := none } := by
        simp [Boxes.image, Handler.cmd, hof1, hrun]
      rw [hpb1]
      simp only [workerImage, him, resOf]
      rw [hpb2 (prepInput fs cb.code h.inpfile), hidem]
      simp only [workerImage, him, resOf]
      exact ⟨trivial, trivial, trivial, trivial⟩
    · have him : Protocol.image runner (prepInput fs cb.code h.inpfile) h =
          { nodes := some (h.CodeBlockNodes h.codec.attr out),
            fs := prepInput fs cb.code h.inpfile, output := out, invoked := true,
            diag := none } := by
        simp [Protocol.image, Handler.cmd, hof1, hrun]
      rw [hpb1]
      simp only [workerImage, him, resOf]
      rw [hpb2 (prepInput fs cb.code h.inpfile), hidem]
      simp only [workerImage, him, resOf]
      exact ⟨trivial, trivial, trivial, trivial⟩
  · have hins : prepInput ((prepInput fs cb.code h.inpfile).insert h.outfile out)
        cb.code h.inpfile = (prepInput fs cb.code h.inpfile).insert h.outfile out :=
      prepInput_insert fs cb.code h.inpfile h.outfile out hio
    rintro (rfl | rfl)
    · by_cases hof : (prepInput fs cb.code h.inpfile).isfile h.outfile = true
      · have him : PlotUtilsGraph.image runner format (prepInput fs cb.code h.inpfile) h =
            { nodes := some h.ParaNodes, fs := prepInput fs cb.code h.inpfile,
              output := "", invoked := false, diag := none } := by
          simp [PlotUtilsGraph.image, hRF, Handler.cmd, hof, hout0, Handler.write]
        rw [hpb1]
        simp only [workerImage, him, resOf]
        rw [hpb2 (prepInput fs cb.code h.inpfile), hidem]
        simp only [workerImage, him, resOf]
        exact ⟨trivial, trivial, trivial⟩
      · have him1 : PlotUtilsGraph.image runner format (prepInput fs cb.code h.inpfile) h =
            { nodes := some h.ParaNodes,
              fs := (prepInput fs cb.code h.inpfile).insert h.outfile out,
              output := out, invoked := true, diag := none } := by
          simp [PlotUtilsGraph.image, hRF, Handler.cmd, hof, hrun, hout0, Handler.write,
            hlen]
        have him2 : PlotUtilsGraph.image runner format
            ((prepInput fs cb.code h.inpfile).insert h.outfile out) h =
            { nodes := some h.ParaNodes,
              fs := (prepInput fs cb.code h.inpfile).insert h.outfile out,
              output := "", invoked := false, diag := none } := by
          simp [PlotUtilsGraph.image, hRF, Handler.cmd, FS.isfile_insert_self, hout0,
            Handler.write]
        rw [hpb1]
        simp only [workerImage, him1, resOf]
        rw [hpb2 ((prepInput fs cb.code h.inpfile).insert h.outfile out), hins]
        simp only [workerImage, him2, resOf]
        exact ⟨trivial, trivial, trivial⟩
    · by_cases hof : (prepInput fs cb.code h.inpfile).isfile h.outfile = true
      · have him : Pic2Plot.image runner format (prepInput fs cb.code h.inpfile) h =
            { nodes := some h.ParaNodes, fs := prepInput fs cb.code h.inpfile,
              output := "", invoked := false, diag := none } := by
          simp [Pic2Plot.image, hRF, Handler.cmd, hof, hout0, Handler.write]
        rw [hpb1]
        simp only [workerImage, him, resOf]
        rw [hpb2 (prepInput fs cb.code h.inpfile), hidem]
        simp only [workerImage, him, resOf]
        exact ⟨trivial, trivial, trivial⟩
      · have him1 : Pic2Plot.image runner format (prepInput fs cb.code h.inpfile) h =
            { nodes := some h.ParaNodes,
              fs := (prepInput fs cb.code h.inpfile).insert h.outfile out,
              output := out, invoked := true, diag := none } := by
          simp [Pic2Plot.image, hRF, Handler.cmd, hof, hrun, hout0, Handler.write, hlen]
        have him2 : Pic2Plot.image runner format
            ((prepInput fs cb.code h.inpfile).insert h.outfile out) h =
            { nodes := some h.ParaNodes,
              fs := (prepInput fs cb.code h.inpfile).insert h.outfile out,
              output := "", invoked := false, diag := none } := by
          simp [Pic2Plot.image, hRF, Handler.cmd, FS.isfile_insert_self, hout0,
            Handler.write]
        rw [hpb1]
        simp only [workerImage, him1, resOf]
        rw [hpb2 ((prepInput fs cb.code h.inpfile).insert h.outfile out), hins]
        simp only [workerImage, him2, resOf]
        exact ⟨trivial, trivial, trivial⟩
  · rintro rfl hsrc
    have hins : prepInput ((prepInput fs cb.code h.inpfile).insert h.outfile out)
        cb.code h.inpfile = (prepInput fs cb.code h.inpfile).insert h.outfile out :=
      prepInput_insert fs cb.code h.inpfile h.outfile out hio
    have hsrc1 : (prepInput fs cb.code h.inpfile).isfile h.codetxt = true := by
      rw [hct]
      exact prepInput_isfile_mono fs cb.code h.inpfile cb.code hsrc
    have hsrc2 : ((prepInput fs cb.code h.inpfile).insert h.outfile out).isfile
        h.codetxt = true := by
      rw [hct]
      exact FS.isfile_insert_mono _ _ _ _ (prepInput_isfile_mono fs cb.code h.inpfile
        cb.code hsrc)
    by_cases hof : (prepInput fs cb.code h.inpfile).isfile h.outfile = true
    · have him : PlotUtilPlot.image runner format (prepInput fs cb.code h.inpfile) h =
          { nodes := some h.ParaNodes, fs := prepInput fs cb.code h.inpfile,
            output := "", invoked := false, diag := none } := by
        simp [PlotUtilPlot.image, hRF, Handler.cmd, hof, hout0, Handler.write, hsrc1]
      rw [hpb1]
      simp only [workerImage, him, resOf]
      rw [hpb2 (prepInput fs cb.code h.inpfile), hidem]
      simp only [workerImage, him, resOf]
      exact ⟨trivial, trivial, trivial⟩
    · have him1 : PlotUtilPlot.image runner format (prepInput fs cb.code h.inpfile) h =
          { nodes := some h.ParaNodes,
            fs := (prepInput fs cb.code h.inpfile).insert h.outfile out,
            output := out, invoked := true, diag := none } := by
        simp [PlotUtilPlot.image, hRF, Handler.cmd, hof, hrun, hout0, Handler.write,
          hlen, hsrc1]
      have him2 : PlotUtilPlot.image runner format
          ((prepInput fs cb.code h.inpfile).insert h.outfile out) h =
          { nodes := some h.ParaNodes,
            fs := (prepInput fs cb.code h.inpfile).insert h.outfile out,
            output := "", invoked := false, diag := none } := by
        simp [PlotUtilPlot.image, hRF, Handler.cmd, FS.isfile_insert_self, hout0,
          Handler.write, hsrc2]
      rw [hpb1]
      simp only [workerImage, him1, resOf]
      rw [hpb2 ((prepInput fs cb.code h.inpfile).insert h.outfile out), hins]
      simp only [workerImage, him2, resOf]
      exact ⟨trivial, trivial, trivial⟩
  · intro w2 fs2 hof2
    cases w2 with
    | imagine => rfl
    | figlet => simp [workerImage, Figlet.image, Handler.cmd, hof2]
    | boxes => simp [workerImage, Boxes.image, Handler.cmd, hof2]
    | protocol => simp [workerImage, Protocol.image, Handler.cmd, hof2]
    | plotUtilPlot =>
      by_cases hs : fs2.isfile h.codetxt = true <;>
        simp [workerImage, PlotUtilPlot.image, hRF, Handler.cmd, hof2, hs, hout0,
          Handler.write]
    | plotUtilsGraph =>
      simp [workerImage, PlotUtilsGraph.image, hRF, Handler.cmd, hof2, hout0,
        Handler.write]
    | pic2Plot =>
      simp [workerImage, Pic2Plot.image, hRF, Handler.cmd, hof2, hout0, Handler.write]
    | plantUml => simp [workerImage, PlantUml.image, hRF, Handler.cmd, hof2]
    | mermaid => simp [workerImage, Mermaid.image, hRF, Handler.cmd, hof2]
    | ditaa => simp [workerImage, Ditaa.image, hRF, Handler.cmd, hof2]
    | mscGen => simp [workerImage, MscGen.image, hRF, Handler.cmd, hof2]
    | blockDiag => simp [workerImage, BlockDiag.image, hRF, Handler.cmd, hof2]
    | graphviz => simp [workerImage, Graphviz.image, hRF, Handler.cmd, hof2]

/-- Witness for `cache_idempotence_amended`. -/
theorem cache_idempotence_amended_witness :
    (dispatch ⟨"", ["graph"], [], "points"⟩ = .byClass .plotUtilsGraph "graph"
      ∧ Handler.init (fun _ => "h") .plotUtilsGraph (some "graph")
          ⟨"", ["graph"], [], "points"⟩ ⟨[]⟩ =
        .ok (⟨⟨"", ["graph"], [], "points"⟩, "", ["graph"], [], none, "", "", "graph",
          false, "pd-images/h", "png", "pd-images/h.png", "pd-images/h.txt",
          "points", ""⟩, ⟨[("pd-images/h.txt", "points")]⟩)
      ∧ ("ART" : String) ≠ "")
    ∧ (resOf (processBlock (fun _ => "h") (fun _ => Except.ok "ART") "html"
        (resOf (processBlock (fun _ => "h") (fun _ => Except.ok "ART") "html" ⟨[]⟩
          ⟨"", ["graph"], [], "points"⟩)).fs ⟨"", ["graph"], [], "points"⟩)).invoked
      = false :=
  ⟨⟨rfl, rfl, by decide⟩,
   (((cache_idempotence_amended (fun _ => "h") (fun _ => Except.ok "ART") "html" ⟨[]⟩
      ⟨"", ["graph"], [], "points"⟩ .plotUtilsGraph "graph" (some "graph")
      ⟨⟨"", ["graph"], [], "points"⟩, "", ["graph"], [], none, "", "", "graph", false,
        "pd-images/h", "png", "pd-images/h.png", "pd-images/h.txt", "points", ""⟩
      ⟨[("pd-images/h.txt", "points")]⟩ "ART" (fun _ => rfl) (by decide)
      (Or.inl ⟨rfl, rfl⟩) rfl).2.1) (Or.inl rfl)).1⟩


end Imagine
